import Mathlib

/-
  Verification development for the immich-smart-albums selection engine.

  Shallow embedding of:
  - ImmichAPI.execute_search        (src/lib/api.py, lines 194-231) and the
    equivalent execute_search       (src/immich-smart-albums.py, lines 75-128):
    the two differ only in payload construction details (withExif flag,
    popping a pre-existing page key) that do not affect the accumulation
    loop, so one Lean function models both.
  - apply_filters                   (src/immich-smart-albums.py, lines 130-207)
  - Filter.apply_local_filters      (src/lib/filter.py, lines 91-152)
  - Filter.parse_filters            (src/lib/filter.py, lines 63-89)
  - the orchestration in main       (src/immich-smart-albums.py, lines 324-664)

  External collaborators (HTTP transport, jsonpath_ng, the re module) are
  modelled at their interface, as the spec directs: page responses become an
  explicit finite list, and jsonpath/regex evaluation becomes an Oracle of
  pure functions. Python truthiness (empty set / 0 / None are falsy) and
  Python slice semantics are modelled explicitly where the code relies on
  them.
-/

/-- Model of a Python value extracted by a jsonpath match: either None or a
value whose str() form is the given string. str(None) is the string "None". -/
inductive PyValue where
  | vnone
  | vstr (s : String)
deriving DecidableEq, Repr

def pyStr : PyValue → String
  | .vnone => "None"
  | .vstr s => s

/-- An asset: a record with an id field and an arbitrary nested payload,
abstracted as an association list (the oracle consumes the whole asset). -/
structure Asset where
  id : String
  attrs : List (String × PyValue) := []
deriving DecidableEq, Repr

/-- A filter rule as stored in the parsed filter list: a dict with keys
path, regex (optional), description (optional). -/
structure Rule where
  path : String
  regex : Option String
  description : Option String
deriving DecidableEq, Repr

/-- Interface to the external jsonpath_ng and re libraries, per the design
note that path evaluation is a capability interface. find models
parse(path) followed by expr.find(asset): none models an exception raised
by parse or find (caught by the callers), some vs the list of match
values. search models bool(re.search(pattern, s, re.IGNORECASE)) for a
pattern accepted by the re module. -/
structure Oracle where
  find : String → Asset → Option (List PyValue)
  search : String → String → Bool

/-- One page response of the search endpoint, as seen through
api_request / _request: failure covers a None result (transport error,
non-ok status, empty body) and a JSON body without an assets key; page
carries assets.items and whether assets.nextPage is non-null. -/
inductive PageResponse where
  | failure
  | page (items : List Asset) (hasNext : Bool)
deriving DecidableEq, Repr

/-- Python truthiness of the resultLimit / max_assets value: None and 0 are
falsy, every other integer is truthy. -/
def pyTruthyInt : Option Int → Bool
  | none => false
  | some l => l != 0

/-- Python list slicing lst[:k] for an integer k: a nonnegative k keeps the
first k elements, a negative k drops the last -k elements. -/
def pySliceTo {α : Type} (l : List α) (k : Int) : List α :=
  if 0 ≤ k then l.take k.toNat else l.take (l.length - (-k).toNat)

/-- The guard result_limit and len(all_assets) >= result_limit of the
pagination loop. -/
def limitHit (limit : Option Int) (n : Nat) : Bool :=
  pyTruthyInt limit && decide (limit.getD 0 ≤ (n : Int))

/-- The pagination loop of execute_search, recursing over the finite list
of server responses (position = page number). The accumulator is
all_assets. Running off the end of the response list models a request
error (None result) and stops the loop exactly like a failure response.
Mirrors src/lib/api.py lines 200-231 and src/immich-smart-albums.py lines
90-128: extend with the page items, then truncate and stop if the
(truthy) result limit is reached, then stop if nextPage is None. -/
def execute_search_go (limit : Option Int) (acc : List Asset) :
    List PageResponse → List Asset
  | [] => acc
  | .failure :: _ => acc
  | .page items hasNext :: rest =>
    if limitHit limit (acc ++ items).length then
      pySliceTo (acc ++ items) (limit.getD 0)
    else if hasNext then
      execute_search_go limit (acc ++ items) rest
    else
      acc ++ items

/-- execute_search on a query whose resultLimit field is limit, against a
server that answers the successive pages with the given responses. -/
def execute_search (limit : Option Int) (pages : List PageResponse) : List Asset :=
  execute_search_go limit [] pages

/-- The item list of a page of a response sequence. -/
def pageItems : PageResponse → List Asset
  | .failure => []
  | .page items _ => items

/-- Modelled from the spec (section 4.2): de-duplication by asset id
keeping the first occurrence. The spec claims execute_search applies this
before returning; this definition exists only to compare the spec wording
with the code. -/
def dedupById : List Asset → List Asset
  | [] => []
  | a :: rest =>
    a :: (dedupById rest).filter (fun b => b.id ≠ a.id)

/-- A full multi-page run: every page before the last reports a next page,
the last does not. -/
def wellFormedPages (init : List (List Asset)) (last : List Asset) : List PageResponse :=
  init.map (fun items => PageResponse.page items true) ++ [PageResponse.page last false]

-- ### Helper lemmas about execute_search

theorem limitHit_none (n : Nat) : limitHit none n = false := rfl

theorem wellFormedPages_nil (last : List Asset) :
    wellFormedPages [] last = [PageResponse.page last false] := rfl

theorem wellFormedPages_cons (items : List Asset) (init : List (List Asset))
    (last : List Asset) :
    wellFormedPages (items :: init) last =
      PageResponse.page items true :: wellFormedPages init last := rfl

theorem execute_search_go_page (limit : Option Int) (acc items : List Asset)
    (hasNext : Bool) (rest : List PageResponse) :
    execute_search_go limit acc (PageResponse.page items hasNext :: rest) =
      (if limitHit limit (acc ++ items).length then
        pySliceTo (acc ++ items) (limit.getD 0)
      else if hasNext then
        execute_search_go limit (acc ++ items) rest
      else
        acc ++ items) := rfl

theorem execute_search_go_none_concat (last : List Asset) :
    ∀ (init : List (List Asset)) (acc : List Asset),
      execute_search_go none acc (wellFormedPages init last) = acc ++ (init.flatten ++ last) := by
  intro init
  induction init with
  | nil =>
    intro acc
    simp [wellFormedPages_nil, execute_search_go, limitHit_none]
  | cons items rest ih =>
    intro acc
    rw [wellFormedPages_cons, execute_search_go_page, limitHit_none]
    simp only [Bool.false_eq_true, if_false, if_true]
    rw [ih (acc ++ items)]
    simp [List.append_assoc]

/-- With no limit, the accumulator is a prefix of the loop result. -/
theorem execute_search_go_none_grows :
    ∀ (pages : List PageResponse) (acc : List Asset),
      ∃ t, execute_search_go none acc pages = acc ++ t := by
  intro pages
  induction pages with
  | nil => intro acc; exact ⟨[], by simp [execute_search_go]⟩
  | cons p rest ih =>
    intro acc
    cases p with
    | failure => exact ⟨[], by simp [execute_search_go]⟩
    | page items hasNext =>
      cases hasNext with
      | true =>
        obtain ⟨t, ht⟩ := ih (acc ++ items)
        refine ⟨items ++ t, ?_⟩
        rw [execute_search_go_page, limitHit_none]
        simpa [List.append_assoc] using ht
      | false =>
        refine ⟨items, ?_⟩
        rw [execute_search_go_page, limitHit_none]
        simp

-- ### C1

/-- C1 counterexample input: two pages that both return the same asset. -/
def c1Asset : Asset := { id := "a1" }

def c1Pages : List PageResponse :=
  [PageResponse.page [c1Asset] true, PageResponse.page [c1Asset] false]

/-- C1 counterexample: the claim states that execute_search returns the
concatenation of the page item lists de-duplicated by asset id before
returning. On a run whose two pages both return the asset with id a1, the
code returns the two-element list [a1, a1]: no de-duplication by id is
applied inside execute_search (neither src/lib/api.py lines 200-231 nor
src/immich-smart-albums.py lines 90-128 contain one; ids are only
collapsed later, by the set and dict constructions of the callers). -/
theorem c1_no_dedup_counterexample :
    execute_search none c1Pages = [c1Asset, c1Asset] ∧
      execute_search none c1Pages ≠ dedupById (c1Pages.map pageItems).flatten := by
  constructor
  · rfl
  · decide

theorem map_pageItems_wellFormed (init : List (List Asset)) (last : List Asset) :
    ((wellFormedPages init last).map pageItems).flatten = init.flatten ++ last := by
  induction init with
  | nil => simp [wellFormedPages_nil, pageItems]
  | cons items rest ih =>
    rw [wellFormedPages_cons]
    simp only [List.map_cons, List.flatten_cons, pageItems]
    rw [ih]
    simp [List.append_assoc]

/-- C1 (amended): for every finite sequence of pages forming a complete run
(each page before the last announces a next page, the last does not) and no
result limit, execute_search terminates (it is a total structurally
recursive function) and returns exactly the concatenation of the page item
lists in server pagination order; no de-duplication is applied. -/
theorem c1_execute_search_concat (init : List (List Asset)) (last : List Asset) :
    execute_search none (wellFormedPages init last) =
      ((wellFormedPages init last).map pageItems).flatten := by
  rw [execute_search, execute_search_go_none_concat last init, map_pageItems_wellFormed]
  simp

-- ### C7

/-- C7: if a page response is absent or malformed after a sequence of
successful pages that each announced a next page, and no result limit is in
effect, execute_search stops fetching at the failed page and returns
exactly the items accumulated from the earlier pages; subsequent responses
(rest) are never consumed. The function is total, so no exception reaches
the caller: the break on a falsy result or missing assets key is the only
control flow. -/
theorem c7_partial_failure (good : List (List Asset)) (rest : List PageResponse) :
    execute_search none
        (good.map (fun items => PageResponse.page items true) ++
          PageResponse.failure :: rest) =
      good.flatten := by
  suffices h : ∀ acc, execute_search_go none acc
      (good.map (fun items => PageResponse.page items true) ++
        PageResponse.failure :: rest) = acc ++ good.flatten by
    simpa using h []
  induction good with
  | nil => intro acc; simp [execute_search_go]
  | cons items tl ih =>
    intro acc
    rw [List.map_cons, List.cons_append, execute_search_go_page, limitHit_none]
    simp only [Bool.false_eq_true, if_false, if_true]
    rw [ih (acc ++ items)]
    simp [List.append_assoc]

-- ### C3

/-- C3 counterexample input: a single final page with one item. -/
def c3Pages : List PageResponse := [PageResponse.page [c1Asset] false]

/-- C3 counterexample: the claim quantifies over every query carrying
resultLimit = N. For N = 0 the code treats the limit as falsy
(if result_limit: ...) and never truncates: on a run that accumulates one
item, more than 0 items would accumulate, yet the returned count is 1, not
exactly 0, so the inclusive cap is exceeded. -/
theorem c3_zero_limit_counterexample :
    0 < (execute_search none c3Pages).length ∧
      (execute_search (some 0) c3Pages).length ≠ 0 := by
  constructor <;> decide

theorem limitHit_some_nat (N n : Nat) (hN : 0 < N) :
    limitHit (some (N : Int)) n = decide (N ≤ n) := by
  have h1 : pyTruthyInt (some (N : Int)) = true := by
    simp [pyTruthyInt]
    omega
  simp only [limitHit, h1, Bool.true_and, Option.getD_some]
  simp [Nat.cast_le]

theorem pySliceTo_natCast {α : Type} (l : List α) (N : Nat) :
    pySliceTo l (N : Int) = l.take N := by
  simp [pySliceTo]

theorem take_append_left {α : Type} (l t : List α) (N : Nat) (h : N ≤ l.length) :
    (l ++ t).take N = l.take N := by
  rw [List.take_append_eq_append_take, Nat.sub_eq_zero_of_le h, List.take_zero,
    List.append_nil]

theorem execute_search_go_limit_length (N : Nat) (hN : 0 < N) :
    ∀ (pages : List PageResponse) (acc : List Asset), acc.length < N →
      (execute_search_go (some (N : Int)) acc pages).length ≤ N := by
  intro pages
  induction pages with
  | nil => intro acc hacc; simpa [execute_search_go] using le_of_lt hacc
  | cons p rest ih =>
    intro acc hacc
    cases p with
    | failure => simpa [execute_search_go] using le_of_lt hacc
    | page items hasNext =>
      rw [execute_search_go_page, limitHit_some_nat N _ hN]
      by_cases hle : N ≤ (acc ++ items).length
      · rw [if_pos (by simpa using hle)]
        rw [Option.getD_some, pySliceTo_natCast]
        simp
      · rw [if_neg (by simpa using hle)]
        cases hasNext with
        | true =>
          simp only [if_true]
          exact ih (acc ++ items) (lt_of_not_le hle)
        | false =>
          simpa using le_of_lt (lt_of_not_le hle)

theorem execute_search_go_limit_take (N : Nat) (hN : 0 < N) :
    ∀ (pages : List PageResponse) (acc : List Asset), acc.length < N →
      N < (execute_search_go none acc pages).length →
      execute_search_go (some (N : Int)) acc pages =
        (execute_search_go none acc pages).take N := by
  intro pages
  induction pages with
  | nil =>
    intro acc hacc hlong
    simp only [execute_search_go] at hlong
    omega
  | cons p rest ih =>
    intro acc hacc hlong
    cases p with
    | failure =>
      simp only [execute_search_go] at hlong
      omega
    | page items hasNext =>
      rw [execute_search_go_page, limitHit_none] at hlong
      simp only [Bool.false_eq_true, if_false] at hlong
      rw [execute_search_go_page, execute_search_go_page, limitHit_some_nat N _ hN,
        limitHit_none]
      simp only [Bool.false_eq_true, if_false]
      by_cases hle : N ≤ (acc ++ items).length
      · rw [if_pos (by simpa using hle), Option.getD_some, pySliceTo_natCast]
        cases hasNext with
        | true =>
          simp only [if_true] at hlong ⊢
          obtain ⟨t, ht⟩ := execute_search_go_none_grows rest (acc ++ items)
          rw [ht, take_append_left (acc ++ items) t N hle]
        | false =>
          simp only [Bool.false_eq_true, if_false] at hlong ⊢
      · rw [if_neg (by simpa using hle)]
        have hlen : (acc ++ items).length < N := lt_of_not_le hle
        cases hasNext with
        | true =>
          simp only [if_true] at hlong ⊢
          exact ih (acc ++ items) hlen hlong
        | false =>
          simp only [Bool.false_eq_true, if_false] at hlong
          exact absurd hlong (by omega)

/-- C3 (amended): for every positive result limit N the returned count
never exceeds N, and if more than N items would otherwise accumulate (the
run without a limit returns more than N items) then the limited run
returns exactly the first N items of the unlimited accumulation order.
The original claim also covered nonpositive limits, where Python
truthiness (N = 0) or negative slicing (N < 0) break it; see the
counterexample. -/
theorem c3_result_limit (N : Nat) (pages : List PageResponse) (hN : 0 < N) :
    (execute_search (some (N : Int)) pages).length ≤ N ∧
      (N < (execute_search none pages).length →
        execute_search (some (N : Int)) pages = (execute_search none pages).take N) := by
  constructor
  · exact execute_search_go_limit_length N hN pages [] (by simpa using hN)
  · intro hlong
    exact execute_search_go_limit_take N hN pages [] (by simpa using hN) hlong

/-- Witness for C3: with limit 1 and a run that would accumulate two items,
the result is the first item alone. -/
theorem c3_result_limit_witness :
    (execute_search (some (1 : Nat) : Option Int)
        [PageResponse.page [c1Asset] true,
         PageResponse.page [{ id := "b2" }] false]).length ≤ 1 ∧
      execute_search (some ((1 : Nat) : Int))
          [PageResponse.page [c1Asset] true,
           PageResponse.page [{ id := "b2" }] false] = [c1Asset] := by
  have h := c3_result_limit 1
    [PageResponse.page [c1Asset] true, PageResponse.page [{ id := "b2" }] false]
    (by decide)
  refine ⟨by exact_mod_cast h.1, ?_⟩
  have h2 := h.2 (by decide)
  rw [show ((1 : Nat) : Int) = (1 : Int) from rfl] at h2 ⊢
  rw [h2]
  decide

-- ### The predicate filter engine

/-- Python f-string rendering of an optional string: None renders as the
string None. -/
def pyOptStr : Option String → String
  | none => "None"
  | some s => s

/-- The effective label of a rule, per
description = filter_item.get("description", f"{path}:{regex}") in both
filter iterations: an absent description defaults to the path, a colon and
the Python rendering of the regex field. -/
def effectiveDescription (r : Rule) : String :=
  r.description.getD (r.path ++ ":" ++ pyOptStr r.regex)

/-- Python truthiness of the regex field (if regex: ...): an absent regex
and an empty pattern string are falsy. -/
def pyTruthyRegex : Option String → Bool
  | none => false
  | some s => !s.isEmpty

/-- Per-rule match of apply_filters (src/immich-smart-albums.py lines
151-175): evaluate the path; an exception (find = none) is caught and the
rule does not match; with no matched values the rule does not match; with
a truthy regex the rule matches iff some matched value, rendered with
str(), satisfies a case-insensitive search; otherwise path presence alone
matches. -/
def ruleMatchesMain (o : Oracle) (a : Asset) (r : Rule) : Bool :=
  match o.find r.path a with
  | none => false
  | some found =>
    if found.isEmpty then false
    else if pyTruthyRegex r.regex then
      found.any (fun m => o.search (pyOptStr r.regex) (pyStr m))
    else
      true

/-- Per-rule match of Filter.apply_local_filters (src/lib/filter.py lines
108-128). Identical to ruleMatchesMain except for the guard
match is not None and re.search(...) on line 117, which skips None values
instead of matching the pattern against the string None. -/
def ruleMatchesLib (o : Oracle) (a : Asset) (r : Rule) : Bool :=
  match o.find r.path a with
  | none => false
  | some found =>
    if found.isEmpty then false
    else if pyTruthyRegex r.regex then
      found.any (fun m => m != PyValue.vnone && o.search (pyOptStr r.regex) (pyStr m))
    else
      true

/-- The set comprehension over asset ids used throughout main. -/
def assetIds (l : List Asset) : Finset String :=
  (l.map Asset.id).toFinset

/-- The matched_filters set collected per asset: the set of effective
labels of the rules that matched (a Python set of strings, so duplicate
labels collapse). Parameterized by the per-rule matcher, the only point
where the two filter iterations differ. -/
def matchedFilters (m : Asset → Rule → Bool) (a : Asset) (filters : List Rule) :
    Finset String :=
  ((filters.filter (fun r => m a r)).map effectiveDescription).toFinset

/-- The per-asset pass decision of both filter iterations (lines 177-199
of the main script and 130-147 of lib/filter.py). The include and exclude
arms are spelled out separately because the sources duplicate them. -/
def assetPasses (is_include use_intersection : Bool) (matchedCount total : Nat) : Bool :=
  if is_include then
    if use_intersection then matchedCount == total
    else matchedCount != 0
  else
    if use_intersection then matchedCount == total
    else matchedCount != 0

/-- The shared body of apply_filters and Filter.apply_local_filters: with
no filters, include returns all ids and exclude returns the empty set;
otherwise the set of ids of assets whose pass decision holds. The two
Python functions differ only in the per-rule matcher m (and logging). -/
def filterDecision (m : Asset → Rule → Bool) (assets : List Asset)
    (filters : List Rule) (is_include use_intersection : Bool) : Finset String :=
  if filters.isEmpty then
    if is_include then assetIds assets else ∅
  else
    assetIds (assets.filter (fun a =>
      assetPasses is_include use_intersection
        (matchedFilters m a filters).card filters.length))

/-- apply_filters of src/immich-smart-albums.py lines 130-207. -/
def apply_filters (o : Oracle) (assets : List Asset) (filters : List Rule)
    (is_include use_intersection : Bool) : Finset String :=
  filterDecision (ruleMatchesMain o) assets filters is_include use_intersection

/-- Filter.apply_local_filters of src/lib/filter.py lines 91-152. -/
def apply_local_filters (o : Oracle) (assets : List Asset) (filters : List Rule)
    (is_include use_intersection : Bool) : Finset String :=
  filterDecision (ruleMatchesLib o) assets filters is_include use_intersection

/-- One element of the filter_inputs list of Filter.parse_filters, after
the external JSON layer: an input that parsed (from a file or a raw
string) as a JSON array of rule objects, one that parsed as JSON but not
as an array (logged and skipped), or a non-JSON string (path:pattern
shorthand when it contains a colon, otherwise logged and skipped). -/
inductive FilterInput where
  | jsonArray (rules : List Rule)
  | jsonNonArray
  | rawString (s : String)

/-- Python inp.split(sep, 1) has two parts exactly when the separator
occurs; the second part keeps any later separators. -/
def splitPathRegex (s : String) : Option (String × String) :=
  match s.splitOn ":" with
  | p :: q :: rest => some (p, String.intercalate ":" (q :: rest))
  | _ => none

/-- Filter.parse_filters of src/lib/filter.py lines 63-89 (the copy in the
main script, lines 209-242, is line-for-line the same logic). Note that no
branch inspects the path field of a rule: rules arriving in a JSON array
are appended unexamined. -/
def parse_filters (inputs : List FilterInput) : List Rule :=
  inputs.foldl (fun filters inp =>
    match inp with
    | .jsonArray rules => filters ++ rules
    | .jsonNonArray => filters
    | .rawString s =>
      match splitPathRegex s with
      | some pr => filters ++ [{ path := pr.1, regex := some pr.2, description := none }]
      | none => filters) []

-- ### Helper lemmas about the filter engine

theorem assetPasses_role (ui : Bool) (mc t : Nat) :
    assetPasses true ui mc t = assetPasses false ui mc t := by
  cases ui <;> rfl

theorem mem_assetIds (l : List Asset) (x : String) :
    x ∈ assetIds l ↔ ∃ a ∈ l, a.id = x := by
  simp [assetIds]

theorem matchedFilters_nodup_card (m : Asset → Rule → Bool) (a : Asset)
    (filters : List Rule) (hnodup : (filters.map effectiveDescription).Nodup) :
    (matchedFilters m a filters).card = (filters.filter (fun r => m a r)).length := by
  have hsub : ((filters.filter (fun r => m a r)).map effectiveDescription).Sublist
      (filters.map effectiveDescription) :=
    (List.filter_sublist filters).map effectiveDescription
  have hnd : ((filters.filter (fun r => m a r)).map effectiveDescription).Nodup :=
    hnodup.sublist hsub
  rw [matchedFilters, List.toFinset_card_of_nodup hnd, List.length_map]

theorem matchedFilters_card_eq_iff (m : Asset → Rule → Bool) (a : Asset)
    (filters : List Rule) (hnodup : (filters.map effectiveDescription).Nodup) :
    (matchedFilters m a filters).card = filters.length ↔
      ∀ r ∈ filters, m a r = true := by
  rw [matchedFilters_nodup_card m a filters hnodup]
  exact List.filter_length_eq_length

theorem matchedFilters_card_pos_iff (m : Asset → Rule → Bool) (a : Asset)
    (filters : List Rule) :
    (matchedFilters m a filters).card ≠ 0 ↔ ∃ r ∈ filters, m a r = true := by
  rw [Ne, Finset.card_eq_zero, matchedFilters]
  rw [List.toFinset_eq_empty_iff, List.map_eq_nil_iff, List.filter_eq_nil_iff]
  push_neg
  simp

theorem matchedFilters_card_lt (m : Asset → Rule → Bool) (a : Asset)
    (filters : List Rule) (h : ¬ (filters.map effectiveDescription).Nodup) :
    (matchedFilters m a filters).card < filters.length := by
  have hle : (matchedFilters m a filters).card ≤
      (filters.map effectiveDescription).toFinset.card := by
    apply Finset.card_le_card
    intro x hx
    rw [matchedFilters, List.mem_toFinset] at hx
    rw [List.mem_toFinset]
    exact ((List.filter_sublist filters).map effectiveDescription).subset hx
  have hlt : (filters.map effectiveDescription).toFinset.card <
      (filters.map effectiveDescription).length := by
    rcases lt_or_eq_of_le (List.toFinset_card_le (filters.map effectiveDescription)) with h1 | h1
    · exact h1
    · exfalso
      apply h
      have hn : ((filters.map effectiveDescription : List String) : Multiset String).Nodup :=
        Multiset.toFinset_card_eq_card_iff_nodup.mp (by simpa using h1)
      simpa using hn
  have := hle.trans_lt hlt
  simpa using this

theorem filterDecision_mem (m : Asset → Rule → Bool) (assets : List Asset)
    (filters : List Rule) (inc ui : Bool) (x : String)
    (hne : filters.isEmpty = false) :
    (x ∈ filterDecision m assets filters inc ui ↔
      ∃ a ∈ assets, a.id = x ∧
        assetPasses inc ui (matchedFilters m a filters).card filters.length = true) := by
  simp only [filterDecision, hne, Bool.false_eq_true, if_false]
  rw [mem_assetIds]
  constructor
  · rintro ⟨a, ha, hid⟩
    rw [List.mem_filter] at ha
    exact ⟨a, ha.1, hid, ha.2⟩
  · rintro ⟨a, ha, hid, hp⟩
    exact ⟨a, List.mem_filter.mpr ⟨ha, hp⟩, hid⟩

theorem filterDecision_role (m : Asset → Rule → Bool) (assets : List Asset)
    (filters : List Rule) (ui : Bool) (hne : filters.isEmpty = false) :
    filterDecision m assets filters true ui = filterDecision m assets filters false ui := by
  simp only [filterDecision, hne, Bool.false_eq_true, if_false]
  rfl

theorem filterDecision_dup_empty (m : Asset → Rule → Bool) (assets : List Asset)
    (filters : List Rule) (inc : Bool)
    (h : ¬ (filters.map effectiveDescription).Nodup) :
    filterDecision m assets filters inc true = ∅ := by
  have hne : filters.isEmpty = false := by
    cases filters with
    | nil => exact absurd (by simp) h
    | cons a l => rfl
  simp only [filterDecision, hne, Bool.false_eq_true, if_false]
  have hnil : assets.filter (fun a =>
      assetPasses inc true (matchedFilters m a filters).card filters.length) = [] := by
    apply List.filter_eq_nil_iff.mpr
    intro a _
    have hlt := matchedFilters_card_lt m a filters h
    cases inc <;> simp [assetPasses, Nat.ne_of_lt hlt]
  rw [hnil]
  simp [assetIds]

-- ### C5

/-- C5 counterexample environment: every path evaluation yields one plain
value, so every rule without a regex matches every asset. -/
def c5Oracle : Oracle :=
  { find := fun _ _ => some [PyValue.vstr "x"], search := fun _ _ => false }

def c5Asset : Asset := { id := "A" }

/-- Two distinct rules carrying the same description label. -/
def c5r1 : Rule := { path := "$.exifInfo.city", regex := none, description := some "dup" }

def c5r2 : Rule := { path := "$.exifInfo.country", regex := none, description := some "dup" }

/-- C5 counterexample: with two distinct rules that share a description
label, asset A matches every rule, yet the intersection-mode filter does
not admit it: the decision compares the number of distinct matched labels
(here 1) with the number of rules (here 2), so the claimed
admitted-iff-every-rule-matched equivalence fails. -/
theorem c5_duplicate_label_counterexample :
    ruleMatchesMain c5Oracle c5Asset c5r1 = true ∧
      ruleMatchesMain c5Oracle c5Asset c5r2 = true ∧
      apply_filters c5Oracle [c5Asset] [c5r1, c5r2] true true = ∅ := by
  refine ⟨rfl, rfl, ?_⟩
  decide

/-- C5 (amended): for a non-empty rule list whose effective labels are
pairwise distinct, both filter iterations admit an asset in intersection
mode iff every rule matched it and in union mode iff at least one rule
matched it; and for any rule list and mode the include and exclude roles
compute the same set (the pass decision is role-independent, the role only
determines what the caller does with the set). Without the distinct-label
hypothesis the intersection direction fails, because the decision counts
distinct matched labels against the rule count; see the counterexample. -/
theorem c5_all_any_semantics (o : Oracle) (assets : List Asset) (filters : List Rule)
    (hne : filters ≠ []) (hnodup : (filters.map effectiveDescription).Nodup) :
    (∀ x : String,
      (x ∈ apply_filters o assets filters true true ↔
        ∃ a ∈ assets, a.id = x ∧ ∀ r ∈ filters, ruleMatchesMain o a r = true) ∧
      (x ∈ apply_filters o assets filters true false ↔
        ∃ a ∈ assets, a.id = x ∧ ∃ r ∈ filters, ruleMatchesMain o a r = true) ∧
      (x ∈ apply_local_filters o assets filters true true ↔
        ∃ a ∈ assets, a.id = x ∧ ∀ r ∈ filters, ruleMatchesLib o a r = true) ∧
      (x ∈ apply_local_filters o assets filters true false ↔
        ∃ a ∈ assets, a.id = x ∧ ∃ r ∈ filters, ruleMatchesLib o a r = true)) ∧
    (∀ ui : Bool,
      apply_filters o assets filters true ui = apply_filters o assets filters false ui ∧
      apply_local_filters o assets filters true ui =
        apply_local_filters o assets filters false ui) := by
  have hfe : filters.isEmpty = false := by
    cases filters with
    | nil => exact absurd rfl hne
    | cons a l => rfl
  constructor
  · intro x
    refine ⟨?_, ?_, ?_, ?_⟩
    · rw [apply_filters, filterDecision_mem _ _ _ _ _ _ hfe]
      constructor
      · rintro ⟨a, ha, hid, hp⟩
        refine ⟨a, ha, hid, ?_⟩
        rw [← matchedFilters_card_eq_iff (ruleMatchesMain o) a filters hnodup]
        simpa [assetPasses] using hp
      · rintro ⟨a, ha, hid, hall⟩
        refine ⟨a, ha, hid, ?_⟩
        have := (matchedFilters_card_eq_iff (ruleMatchesMain o) a filters hnodup).mpr hall
        simp [assetPasses, this]
    · rw [apply_filters, filterDecision_mem _ _ _ _ _ _ hfe]
      constructor
      · rintro ⟨a, ha, hid, hp⟩
        refine ⟨a, ha, hid, ?_⟩
        rw [← matchedFilters_card_pos_iff (ruleMatchesMain o) a filters]
        simpa [assetPasses] using hp
      · rintro ⟨a, ha, hid, hex⟩
        refine ⟨a, ha, hid, ?_⟩
        have := (matchedFilters_card_pos_iff (ruleMatchesMain o) a filters).mpr hex
        simp [assetPasses, this]
    · rw [apply_local_filters, filterDecision_mem _ _ _ _ _ _ hfe]
      constructor
      · rintro ⟨a, ha, hid, hp⟩
        refine ⟨a, ha, hid, ?_⟩
        rw [← matchedFilters_card_eq_iff (ruleMatchesLib o) a filters hnodup]
        simpa [assetPasses] using hp
      · rintro ⟨a, ha, hid, hall⟩
        refine ⟨a, ha, hid, ?_⟩
        have := (matchedFilters_card_eq_iff (ruleMatchesLib o) a filters hnodup).mpr hall
        simp [assetPasses, this]
    · rw [apply_local_filters, filterDecision_mem _ _ _ _ _ _ hfe]
      constructor
      · rintro ⟨a, ha, hid, hp⟩
        refine ⟨a, ha, hid, ?_⟩
        rw [← matchedFilters_card_pos_iff (ruleMatchesLib o) a filters]
        simpa [assetPasses] using hp
      · rintro ⟨a, ha, hid, hex⟩
        refine ⟨a, ha, hid, ?_⟩
        have := (matchedFilters_card_pos_iff (ruleMatchesLib o) a filters).mpr hex
        simp [assetPasses, this]
  · intro ui
    exact ⟨filterDecision_role _ assets filters ui hfe,
      filterDecision_role _ assets filters ui hfe⟩

/-- A rule with a label distinct from the label of c5r1. -/
def c5r3 : Rule := { path := "$.exifInfo.country", regex := none, description := some "other" }

/-- Witness for C5: with two distinct-label rules both matching asset A,
intersection mode admits A. -/
theorem c5_all_any_semantics_witness :
    "A" ∈ apply_filters c5Oracle [c5Asset] [c5r1, c5r3] true true := by
  exact (((c5_all_any_semantics c5Oracle [c5Asset] [c5r1, c5r3]
      (by decide) (by decide)).1 "A").1).mpr
    ⟨c5Asset, by simp, rfl, by decide⟩

-- ### C10

/-- C10: if a rule list contains two entries (at distinct positions) with
the same effective label, then for every oracle, asset list and role, both
filter iterations in intersection mode return the empty set: the distinct
matched labels can never number as many as the rules. This holds even for
assets matching every rule. -/
theorem c10_duplicate_labels_empty (o : Oracle) (assets : List Asset)
    (filters : List Rule) (inc : Bool) (i j : Nat)
    (hi : i < filters.length) (hj : j < filters.length) (hij : i ≠ j)
    (hdup : effectiveDescription (filters.get ⟨i, hi⟩) =
      effectiveDescription (filters.get ⟨j, hj⟩)) :
    apply_filters o assets filters inc true = ∅ ∧
      apply_local_filters o assets filters inc true = ∅ := by
  have hnn : ¬ (filters.map effectiveDescription).Nodup := by
    intro hnd
    apply hij
    have hbi : i < (filters.map effectiveDescription).length := by simpa using hi
    have hbj : j < (filters.map effectiveDescription).length := by simpa using hj
    have h1 : (filters.map effectiveDescription).get ⟨i, hbi⟩ =
        (filters.map effectiveDescription).get ⟨j, hbj⟩ := by
      simp only [List.get_eq_getElem, List.getElem_map]
      simpa [List.get_eq_getElem] using hdup
    have h2 := (List.nodup_iff_injective_get.mp hnd) h1
    simpa using congrArg Fin.val h2
  exact ⟨filterDecision_dup_empty _ assets filters inc hnn,
    filterDecision_dup_empty _ assets filters inc hnn⟩

/-- Witness for C10: the concrete duplicate-label rule list [c5r1, c5r2]
on an asset matching both rules yields the empty set. -/
theorem c10_duplicate_labels_empty_witness :
    apply_filters c5Oracle [c5Asset] [c5r1, c5r2] true true = ∅ ∧
      apply_local_filters c5Oracle [c5Asset] [c5r1, c5r2] true true = ∅ :=
  c10_duplicate_labels_empty c5Oracle [c5Asset] [c5r1, c5r2] true 0 1
    (by decide) (by decide) (by decide) (by decide)

-- ### C6

/-- A rule whose path expression is syntactically malformed in the
concrete environment below. -/
def c6BadRule : Rule := { path := "[[[", regex := none, description := none }

def c6Asset : Asset := { id := "X" }

/-- A jsonpath environment in which the expression [[[ is a syntax error
(find raises, modelled as none) and every other path evaluates cleanly. -/
def c6Oracle : Oracle :=
  { find := fun p _ => if p = "[[[" then none else some []
    search := fun _ _ => false }

/-- C6 counterexample: the claim states that malformed path expressions
are reported as an error at rule-load time (parse_filters) and therefore
never reach match-time evaluation. In fact parse_filters performs no path
validation: a JSON array containing the malformed rule loads verbatim with
no error, the malformed expression is then encountered by the evaluation
inside the per-asset matching loop (find returns the exception case
there), where it is caught and treated as no match. -/
theorem c6_load_time_counterexample :
    parse_filters [FilterInput.jsonArray [c6BadRule]] = [c6BadRule] ∧
      c6Oracle.find c6BadRule.path c6Asset = none ∧
      apply_local_filters c6Oracle [c6Asset] [c6BadRule] true false = ∅ := by
  refine ⟨rfl, by decide, by decide⟩

/-- C6 (amended): parse_filters passes rules arriving in a JSON array
through without inspecting their path fields, so a syntactically malformed
path expression is not reported at load time; it is first encountered at
match time, where the evaluation error is caught per rule and treated as
no match for that rule (in both filter iterations), without aborting the
processing of other rules or assets (the functions are total). -/
theorem c6_match_time_error_handling (rules : List Rule) (o : Oracle) (a : Asset)
    (r : Rule) (herr : o.find r.path a = none) :
    parse_filters [FilterInput.jsonArray rules] = rules ∧
      ruleMatchesLib o a r = false ∧ ruleMatchesMain o a r = false := by
  refine ⟨by simp [parse_filters], ?_, ?_⟩
  · rw [ruleMatchesLib, herr]
  · rw [ruleMatchesMain, herr]

/-- Witness for C6: the amended statement at the concrete malformed rule. -/
theorem c6_match_time_error_handling_witness :
    parse_filters [FilterInput.jsonArray [c6BadRule]] = [c6BadRule] ∧
      ruleMatchesLib c6Oracle c6Asset c6BadRule = false ∧
      ruleMatchesMain c6Oracle c6Asset c6BadRule = false :=
  c6_match_time_error_handling [c6BadRule] c6Oracle c6Asset c6BadRule (by decide)

-- ### C8

def c8Rule : Rule := { path := "$.exifInfo.city", regex := some "None", description := none }

def c8Asset : Asset := { id := "Y" }

/-- An environment where the path of c8Rule extracts a Python None value
and the regex engine reports a match exactly when pattern and subject
coincide (as re.search does for the literal pattern None against the
string None). -/
def c8Oracle : Oracle :=
  { find := fun _ _ => some [PyValue.vnone], search := fun rgx s => rgx == s }

/-- C8 counterexample: the two filter iterations differ on assets whose
path evaluation yields None. apply_filters (main script, line 162) applies
the regex to str(None) = the string None and matches; apply_local_filters
(lib/filter.py, line 117) guards with match is not None and skips the
value, so it does not match. The two outputs differ: the main version
returns the asset id, the lib version returns the empty set. -/
theorem c8_none_value_counterexample :
    apply_filters c8Oracle [c8Asset] [c8Rule] true false = {"Y"} ∧
      apply_local_filters c8Oracle [c8Asset] [c8Rule] true false = ∅ ∧
      apply_filters c8Oracle [c8Asset] [c8Rule] true false ≠
        apply_local_filters c8Oracle [c8Asset] [c8Rule] true false := by
  refine ⟨by decide, by decide, by decide⟩

theorem list_any_congr {α : Type} {f g : α → Bool} :
    ∀ l : List α, (∀ v ∈ l, f v = g v) → l.any f = l.any g
  | [], _ => rfl
  | v :: t, h => by
    simp only [List.any_cons]
    rw [h v (by simp), list_any_congr t (fun w hw => h w (by simp [hw]))]

theorem ruleMatches_eq_of_no_vnone (o : Oracle) (a : Asset) (r : Rule)
    (hnone : ∀ vs, o.find r.path a = some vs → PyValue.vnone ∉ vs) :
    ruleMatchesMain o a r = ruleMatchesLib o a r := by
  rw [ruleMatchesMain, ruleMatchesLib]
  cases hfind : o.find r.path a with
  | none => rfl
  | some vs =>
    have hv := hnone vs hfind
    by_cases he : vs.isEmpty
    · simp [he]
    · simp only [he, Bool.false_eq_true, if_false]
      by_cases hr : pyTruthyRegex r.regex
      · simp only [hr, if_true]
        apply list_any_congr
        intro v hvmem
        have : v ≠ PyValue.vnone := fun h => hv (h ▸ hvmem)
        simp [this]
      · simp [hr]

/-- C8 (amended): the two iterations of the predicate filter return the
same set of ids for every asset list, rule list and flag combination,
provided no path evaluation on the given assets yields a Python None
value. When a None value is extracted they differ: the main-script version
matches the pattern against the string None, the lib version skips the
value; see the counterexample. -/
theorem c8_filter_equivalence (o : Oracle) (assets : List Asset) (filters : List Rule)
    (inc ui : Bool)
    (hnone : ∀ a ∈ assets, ∀ r ∈ filters, ∀ vs,
      o.find r.path a = some vs → PyValue.vnone ∉ vs) :
    apply_filters o assets filters inc ui = apply_local_filters o assets filters inc ui := by
  rw [apply_filters, apply_local_filters, filterDecision, filterDecision]
  by_cases hfe : filters.isEmpty
  · simp [hfe]
  · simp only [hfe, Bool.false_eq_true, if_false]
    congr 1
    apply List.filter_congr
    intro a ha
    have hm : ∀ r ∈ filters, ruleMatchesMain o a r = ruleMatchesLib o a r := by
      intro r hr
      exact ruleMatches_eq_of_no_vnone o a r (hnone a ha r hr)
    have : matchedFilters (ruleMatchesMain o) a filters =
        matchedFilters (ruleMatchesLib o) a filters := by
      rw [matchedFilters, matchedFilters]
      congr 1
      congr 1
      apply List.filter_congr
      intro r hr
      simp [hm r hr]
    rw [this]

/-- Witness for C8: the two iterations agree on a concrete environment
with no None values. -/
theorem c8_filter_equivalence_witness :
    apply_filters c5Oracle [c5Asset] [c5r1] true true =
      apply_local_filters c5Oracle [c5Asset] [c5r1] true true := by
  apply c8_filter_equivalence c5Oracle [c5Asset] [c5r1] true true
  intro a _ r _ vs hvs
  have : vs = [PyValue.vstr "x"] := by
    have h2 : some [PyValue.vstr "x"] = some vs := hvs
    exact (Option.some.inj h2).symm
  rw [this]
  decide

-- ### The selection pipeline (main, src/immich-smart-albums.py lines 324-664)

/-- One search query of a slot: its resultLimit field and the page
responses the server gives it. A query file that fails to load contributes
nothing, exactly like a query whose search returns no assets, so both are
modelled as a query with an empty run. -/
structure SearchQuery where
  resultLimit : Option Int
  pages : List PageResponse

def runQuery (q : SearchQuery) : List Asset :=
  execute_search q.resultLimit q.pages

/-- Python truthiness of an argparse nargs list: None is falsy, a list is
truthy iff non-empty. -/
def optTruthy {α : Type} : Option (List α) → Bool
  | none => false
  | some l => !l.isEmpty

/-- The inputs of one pipeline run: the eight search slots (None when the
flag was not given), the four parsed local filter lists and max_assets.
Field names follow the argparse destinations and the parsed filter list
variables of main. -/
structure Config where
  include_metadata_union : Option (List SearchQuery)
  include_metadata_intersection : Option (List SearchQuery)
  include_smart_union : Option (List SearchQuery)
  include_smart_intersection : Option (List SearchQuery)
  exclude_metadata_union : Option (List SearchQuery)
  exclude_metadata_intersection : Option (List SearchQuery)
  exclude_smart_union : Option (List SearchQuery)
  exclude_smart_intersection : Option (List SearchQuery)
  include_union_filters : List Rule
  include_intersection_filters : List Rule
  exclude_union_filters : List Rule
  exclude_intersection_filters : List Rule
  max_assets : Option Int

/-- One iteration of the loop of execute_search_queries (lines 283-305):
run the query, skip it when it has no assets, otherwise record its id set
and extend the asset list. -/
def esqStep (acc : List Asset × List (Finset String)) (q : SearchQuery) :
    List Asset × List (Finset String) :=
  if (runQuery q).isEmpty then acc
  else (acc.1 ++ runQuery q, acc.2 ++ [assetIds (runQuery q)])

/-- execute_search_queries (lines 273-307): run every query of a slot,
skip queries with no assets, collect the id set of each remaining query
and append its assets to the asset list of the slot. -/
def execute_search_queries : Option (List SearchQuery) → List Asset × List (Finset String)
  | none => ([], [])
  | some qs => qs.foldl esqStep ([], [])

inductive CombineMode where
  | union
  | intersection

/-- calculate_combined_assets (lines 309-322): reduce the id sets of a
group with union or intersection; an empty group gives the empty set. -/
def calculate_combined_assets (asset_sets : List (Finset String))
    (mode : CombineMode) : Finset String :=
  match asset_sets with
  | [] => ∅
  | s :: rest =>
    match mode with
    | .intersection => rest.foldl (fun x y => x ∩ y) s
    | .union => rest.foldl (fun x y => x ∪ y) s

/-- The include-category combination chain (lines 413-427 for metadata,
443-457 for smart, and 572-586 for the local include filters, and the
step-3 chain of lines 459-467, which all have this exact shape): both
groups truthy takes their intersection, one truthy takes that group,
neither gives the empty set. -/
def combine_include_category (u i : Finset String) : Finset String :=
  if u.Nonempty ∧ i.Nonempty then u ∩ i
  else if u.Nonempty then u
  else if i.Nonempty then i
  else ∅

/-- The exclude-category combination (line 485 for metadata, line 502 for
smart): the union of the union-group result and the intersection-group
result. -/
def combine_exclude_category (u i : Finset String) : Finset String :=
  u ∪ i

def metadata_union_result (cfg : Config) : Finset String :=
  calculate_combined_assets (execute_search_queries cfg.include_metadata_union).2 .union

def metadata_intersection_result (cfg : Config) : Finset String :=
  calculate_combined_assets (execute_search_queries cfg.include_metadata_intersection).2
    .intersection

def metadata_result (cfg : Config) : Finset String :=
  combine_include_category (metadata_union_result cfg) (metadata_intersection_result cfg)

def smart_union_result (cfg : Config) : Finset String :=
  calculate_combined_assets (execute_search_queries cfg.include_smart_union).2 .union

def smart_intersection_result (cfg : Config) : Finset String :=
  calculate_combined_assets (execute_search_queries cfg.include_smart_intersection).2
    .intersection

def smart_result (cfg : Config) : Finset String :=
  combine_include_category (smart_union_result cfg) (smart_intersection_result cfg)

def exclude_metadata_result (cfg : Config) : Finset String :=
  combine_exclude_category
    (calculate_combined_assets (execute_search_queries cfg.exclude_metadata_union).2 .union)
    (calculate_combined_assets
      (execute_search_queries cfg.exclude_metadata_intersection).2 .intersection)

def exclude_smart_result (cfg : Config) : Finset String :=
  combine_exclude_category
    (calculate_combined_assets (execute_search_queries cfg.exclude_smart_union).2 .union)
    (calculate_combined_assets
      (execute_search_queries cfg.exclude_smart_intersection).2 .intersection)

/-- Line 505: exclude_result = exclude_metadata_result | exclude_smart_result. -/
def exclude_result (cfg : Config) : Finset String :=
  exclude_metadata_result cfg ∪ exclude_smart_result cfg

/-- The all_assets list, extended by the eight slots in program order
(lines 406-407, 436-437, 481-482, 498-499). -/
def all_assets (cfg : Config) : List Asset :=
  (execute_search_queries cfg.include_metadata_union).1 ++
    (execute_search_queries cfg.include_metadata_intersection).1 ++
    (execute_search_queries cfg.include_smart_union).1 ++
    (execute_search_queries cfg.include_smart_intersection).1 ++
    (execute_search_queries cfg.exclude_metadata_union).1 ++
    (execute_search_queries cfg.exclude_metadata_intersection).1 ++
    (execute_search_queries cfg.exclude_smart_union).1 ++
    (execute_search_queries cfg.exclude_smart_intersection).1

/-- The ids of every asset returned by a search executed during the run. -/
def observedIds (cfg : Config) : Finset String :=
  assetIds (all_assets cfg)

/-- Step 3 (lines 459-467): combine metadata and smart results; with
neither, final_asset_ids keeps its initial empty value. -/
def search_result (cfg : Config) : Finset String :=
  combine_include_category (metadata_result cfg) (smart_result cfg)

/-- Lines 508-513: subtract the exclude-search result if it is truthy. -/
def after_excludes (cfg : Config) : Finset String :=
  if (exclude_result cfg).Nonempty then search_result cfg \ exclude_result cfg
  else search_result cfg

/-- One step of building the unique_assets_from_all dict (lines 516-518):
Python dict insertion keeps first-insertion key order and overwrites the
value on an existing key. -/
def upsert (m : List Asset) (a : Asset) : List Asset :=
  if m.any (fun b => b.id == a.id) then
    m.map (fun b => if b.id == a.id then a else b)
  else
    m ++ [a]

/-- The values of unique_assets_from_all, in dict order. -/
def unique_assets_from_all (cfg : Config) : List Asset :=
  (all_assets cfg).foldl upsert []

/-- The comprehension [unique_assets_from_all[i] for i in s if i in
unique_assets_from_all] (lines 546-547 and the three analogous sites): as
a set of assets this is the dict values whose id lies in s; the iteration
order over the Python set is arbitrary and the filter output is
order-independent, so dict order is used. -/
def select_assets (cfg : Config) (s : Finset String) : List Asset :=
  (unique_assets_from_all cfg).filter (fun a => decide (a.id ∈ s))

/-- Lines 542-554: include filters, union mode. -/
def include_union_ids (o : Oracle) (cfg : Config) : Finset String :=
  if cfg.include_union_filters.isEmpty then ∅
  else if (after_excludes cfg).Nonempty then
    apply_filters o (select_assets cfg (after_excludes cfg))
      cfg.include_union_filters true false
  else
    apply_filters o (unique_assets_from_all cfg) cfg.include_union_filters true false

/-- Lines 557-569: include filters, intersection mode. -/
def include_intersection_ids (o : Oracle) (cfg : Config) : Finset String :=
  if cfg.include_intersection_filters.isEmpty then ∅
  else if (after_excludes cfg).Nonempty then
    apply_filters o (select_assets cfg (after_excludes cfg))
      cfg.include_intersection_filters true true
  else
    apply_filters o (unique_assets_from_all cfg) cfg.include_intersection_filters true true

/-- Lines 572-586: combine the two include filter results with the same
chain as the search categories. -/
def include_filter_ids (o : Oracle) (cfg : Config) : Finset String :=
  combine_include_category (include_union_ids o cfg) (include_intersection_ids o cfg)

/-- Lines 589-595: intersect the include filter result in, or adopt it
when no search narrowed the set yet. -/
def after_include_filters (o : Oracle) (cfg : Config) : Finset String :=
  if (include_filter_ids o cfg).Nonempty then
    if (after_excludes cfg).Nonempty then after_excludes cfg ∩ include_filter_ids o cfg
    else include_filter_ids o cfg
  else after_excludes cfg

/-- Lines 598-608: exclude filters, union mode. -/
def exclude_union_ids (o : Oracle) (cfg : Config) : Finset String :=
  if cfg.exclude_union_filters.isEmpty then ∅
  else if (after_include_filters o cfg).Nonempty then
    apply_filters o (select_assets cfg (after_include_filters o cfg))
      cfg.exclude_union_filters false false
  else
    apply_filters o (unique_assets_from_all cfg) cfg.exclude_union_filters false false

/-- Lines 611-621: exclude filters, intersection mode. -/
def exclude_intersection_ids (o : Oracle) (cfg : Config) : Finset String :=
  if cfg.exclude_intersection_filters.isEmpty then ∅
  else if (after_include_filters o cfg).Nonempty then
    apply_filters o (select_assets cfg (after_include_filters o cfg))
      cfg.exclude_intersection_filters false true
  else
    apply_filters o (unique_assets_from_all cfg) cfg.exclude_intersection_filters false true

/-- Line 624. -/
def exclude_filter_ids (o : Oracle) (cfg : Config) : Finset String :=
  exclude_union_ids o cfg ∪ exclude_intersection_ids o cfg

/-- Lines 627-632: subtract the exclude filter result if truthy. -/
def after_exclude_filters (o : Oracle) (cfg : Config) : Finset String :=
  if (exclude_filter_ids o cfg).Nonempty then
    after_include_filters o cfg \ exclude_filter_ids o cfg
  else after_include_filters o cfg

/-- The guard of lines 635-637: no results so far, no include filter was
parsed and no include search flag was given. -/
def no_include_criteria (o : Oracle) (cfg : Config) : Bool :=
  decide (after_exclude_filters o cfg = ∅) &&
    cfg.include_union_filters.isEmpty && cfg.include_intersection_filters.isEmpty &&
    !optTruthy cfg.include_metadata_union && !optTruthy cfg.include_metadata_intersection &&
    !optTruthy cfg.include_smart_union && !optTruthy cfg.include_smart_intersection

/-- Lines 634-642: the no-criteria fallback, selecting every observed
asset minus both exclude results. -/
def final_after_fallback (o : Oracle) (cfg : Config) : Finset String :=
  if no_include_criteria o cfg then
    (assetIds (unique_assets_from_all cfg) \ exclude_result cfg) \ exclude_filter_ids o cfg
  else after_exclude_filters o cfg

/-- The whole pipeline of main, ending with the max_assets truncation of
lines 645-648: list(final_asset_ids)[:max_assets] over an unordered set.
list() enumerates the set in an arbitrary order the caller must not rely
on; the model fixes one concrete enumeration (sorted) of the same set. -/
def mainPipeline (o : Oracle) (cfg : Config) : Finset String :=
  if (final_after_fallback o cfg).Nonempty ∧ pyTruthyInt cfg.max_assets ∧
      cfg.max_assets.getD 0 < ((final_after_fallback o cfg).card : Int) then
    (pySliceTo ((final_after_fallback o cfg).sort (fun a b => a ≤ b))
      (cfg.max_assets.getD 0)).toFinset
  else final_after_fallback o cfg

-- ### Helper lemmas about the pipeline

theorem assetIds_append (l1 l2 : List Asset) :
    assetIds (l1 ++ l2) = assetIds l1 ∪ assetIds l2 := by
  simp [assetIds]

theorem assetIds_cons (a : Asset) (l : List Asset) :
    assetIds (a :: l) = insert a.id (assetIds l) := by
  simp [assetIds]

theorem combine_include_empty : combine_include_category ∅ ∅ = ∅ := by
  simp [combine_include_category]

theorem assetIds_upsert (m : List Asset) (a : Asset) :
    assetIds (upsert m a) = assetIds m ∪ {a.id} := by
  rw [upsert]
  by_cases h : m.any (fun b => b.id == a.id)
  · rw [if_pos h]
    have hmem : a.id ∈ assetIds m := by
      rw [List.any_eq_true] at h
      obtain ⟨b, hb, hbe⟩ := h
      rw [mem_assetIds]
      exact ⟨b, hb, by simpa using hbe⟩
    ext x
    simp only [Finset.mem_union, Finset.mem_singleton, mem_assetIds]
    constructor
    · rintro ⟨c, hc, rfl⟩
      rw [List.mem_map] at hc
      obtain ⟨b, hb, rfl⟩ := hc
      by_cases hbe : b.id == a.id
      · have hid : b.id = a.id := by simpa using hbe
        exact Or.inl ⟨b, hb, by simp [hbe, hid]⟩
      · exact Or.inl ⟨b, hb, by simp [hbe]⟩
    · rintro (⟨b, hb, rfl⟩ | rfl)
      · refine ⟨if b.id == a.id then a else b, List.mem_map.mpr ⟨b, hb, rfl⟩, ?_⟩
        by_cases hbe : b.id == a.id
        · have hid : b.id = a.id := by simpa using hbe
          simp [hbe, hid]
        · simp [hbe]
      · rw [mem_assetIds] at hmem
        obtain ⟨b, hb, hbid⟩ := hmem
        refine ⟨if b.id == a.id then a else b, List.mem_map.mpr ⟨b, hb, rfl⟩, ?_⟩
        have hbe : (b.id == a.id) = true := by simpa using hbid
        simp [hbe]
  · rw [if_neg h]
    ext x
    rw [assetIds_append]
    simp [assetIds]

theorem assetIds_foldl_upsert :
    ∀ (l m : List Asset), assetIds (l.foldl upsert m) = assetIds m ∪ assetIds l := by
  intro l
  induction l with
  | nil => intro m; simp [assetIds]
  | cons a t ih =>
    intro m
    simp only [List.foldl_cons]
    rw [ih (upsert m a), assetIds_upsert, assetIds_cons]
    ext x
    simp only [Finset.mem_union, Finset.mem_singleton, Finset.mem_insert]
    tauto

theorem assetIds_unique_all (cfg : Config) :
    assetIds (unique_assets_from_all cfg) = observedIds cfg := by
  rw [unique_assets_from_all, observedIds, assetIds_foldl_upsert]
  simp [assetIds]

theorem assetIds_filter_subset (l : List Asset) (p : Asset → Bool) :
    assetIds (l.filter p) ⊆ assetIds l := by
  intro x hx
  rw [mem_assetIds] at hx
  obtain ⟨a, ha, rfl⟩ := hx
  rw [mem_assetIds]
  exact ⟨a, (List.mem_filter.mp ha).1, rfl⟩

theorem filterDecision_subset (m : Asset → Rule → Bool) (assets : List Asset)
    (filters : List Rule) (inc ui : Bool) :
    filterDecision m assets filters inc ui ⊆ assetIds assets := by
  rw [filterDecision]
  split_ifs with h1 h2
  · exact Finset.Subset.refl _
  · exact Finset.empty_subset _
  · exact assetIds_filter_subset _ _

theorem combine_include_subset (u i : Finset String) :
    combine_include_category u i ⊆ u ∪ i := by
  rw [combine_include_category]
  split_ifs with h1 h2 h3
  · exact Finset.inter_subset_left.trans Finset.subset_union_left
  · exact Finset.subset_union_left
  · exact Finset.subset_union_right
  · exact Finset.empty_subset _

theorem foldl_union_subset (B : Finset String) :
    ∀ (rest : List (Finset String)) (acc : Finset String), acc ⊆ B →
      (∀ s ∈ rest, s ⊆ B) → rest.foldl (fun x y => x ∪ y) acc ⊆ B := by
  intro rest
  induction rest with
  | nil => intro acc h _; simpa using h
  | cons s t ih =>
    intro acc hacc hall
    simp only [List.foldl_cons]
    exact ih (acc ∪ s) (Finset.union_subset hacc (hall s (by simp)))
      (fun u hu => hall u (by simp [hu]))

theorem foldl_inter_subset :
    ∀ (rest : List (Finset String)) (acc : Finset String),
      rest.foldl (fun x y => x ∩ y) acc ⊆ acc := by
  intro rest
  induction rest with
  | nil => intro acc; simp
  | cons s t ih =>
    intro acc
    simp only [List.foldl_cons]
    exact (ih (acc ∩ s)).trans Finset.inter_subset_left

theorem calculate_combined_subset (sets : List (Finset String)) (mode : CombineMode)
    (B : Finset String) (h : ∀ s ∈ sets, s ⊆ B) :
    calculate_combined_assets sets mode ⊆ B := by
  cases sets with
  | nil => simp [calculate_combined_assets]
  | cons s rest =>
    have hs : s ⊆ B := h s (by simp)
    cases mode with
    | union =>
      simp only [calculate_combined_assets]
      exact foldl_union_subset B rest s hs (fun u hu => h u (by simp [hu]))
    | intersection =>
      simp only [calculate_combined_assets]
      exact (foldl_inter_subset rest s).trans hs

theorem esq_foldl_inv :
    ∀ (qs : List SearchQuery) (p : List Asset × List (Finset String)),
      (∀ s ∈ p.2, s ⊆ assetIds p.1) →
      ∀ s ∈ (qs.foldl esqStep p).2, s ⊆ assetIds (qs.foldl esqStep p).1 := by
  intro qs
  induction qs with
  | nil => intro p h; simpa using h
  | cons q t ih =>
    intro p hp
    simp only [List.foldl_cons]
    apply ih
    rw [esqStep]
    by_cases he : (runQuery q).isEmpty
    · rw [if_pos he]
      exact hp
    · rw [if_neg he]
      intro s hs
      rw [List.mem_append] at hs
      rcases hs with hs | hs
      · refine (hp s hs).trans ?_
        rw [assetIds_append]
        exact Finset.subset_union_left
      · rw [List.mem_singleton] at hs
        subst hs
        rw [assetIds_append]
        exact Finset.subset_union_right

theorem execute_search_queries_sets_subset (slot : Option (List SearchQuery)) :
    ∀ s ∈ (execute_search_queries slot).2, s ⊆ assetIds (execute_search_queries slot).1 := by
  cases slot with
  | none => intro s hs; simp [execute_search_queries] at hs
  | some qs => exact esq_foldl_inv qs ([], []) (by simp)

theorem subset_observed_of_sub (cfg : Config) (l : List Asset)
    (h : ∀ a ∈ l, a ∈ all_assets cfg) : assetIds l ⊆ observedIds cfg := by
  intro x hx
  rw [mem_assetIds] at hx
  obtain ⟨a, ha, rfl⟩ := hx
  rw [observedIds, mem_assetIds]
  exact ⟨a, h a ha, rfl⟩

theorem pySliceTo_subset {α : Type} (l : List α) (k : Int) :
    ∀ x ∈ pySliceTo l k, x ∈ l := by
  intro x hx
  rw [pySliceTo] at hx
  split_ifs at hx <;> exact List.mem_of_mem_take hx

theorem mainPipeline_subset (o : Oracle) (cfg : Config) :
    mainPipeline o cfg ⊆ observedIds cfg := by
  have hobs : assetIds (unique_assets_from_all cfg) = observedIds cfg :=
    assetIds_unique_all cfg
  have hsel : ∀ s, assetIds (select_assets cfg s) ⊆ observedIds cfg := by
    intro s
    refine (assetIds_filter_subset _ _).trans ?_
    rw [hobs]
  have hs1 : assetIds (execute_search_queries cfg.include_metadata_union).1 ⊆
      observedIds cfg :=
    subset_observed_of_sub cfg _ (by
      intro a ha
      rw [all_assets]
      simp only [List.mem_append]
      tauto)
  have hs2 : assetIds (execute_search_queries cfg.include_metadata_intersection).1 ⊆
      observedIds cfg :=
    subset_observed_of_sub cfg _ (by
      intro a ha
      rw [all_assets]
      simp only [List.mem_append]
      tauto)
  have hs3 : assetIds (execute_search_queries cfg.include_smart_union).1 ⊆
      observedIds cfg :=
    subset_observed_of_sub cfg _ (by
      intro a ha
      rw [all_assets]
      simp only [List.mem_append]
      tauto)
  have hs4 : assetIds (execute_search_queries cfg.include_smart_intersection).1 ⊆
      observedIds cfg :=
    subset_observed_of_sub cfg _ (by
      intro a ha
      rw [all_assets]
      simp only [List.mem_append]
      tauto)
  have hmu : metadata_union_result cfg ⊆ observedIds cfg := by
    rw [metadata_union_result]
    exact calculate_combined_subset _ _ _
      (fun s hs => (execute_search_queries_sets_subset _ s hs).trans hs1)
  have hmi : metadata_intersection_result cfg ⊆ observedIds cfg := by
    rw [metadata_intersection_result]
    exact calculate_combined_subset _ _ _
      (fun s hs => (execute_search_queries_sets_subset _ s hs).trans hs2)
  have hmr : metadata_result cfg ⊆ observedIds cfg := by
    rw [metadata_result]
    exact (combine_include_subset _ _).trans (Finset.union_subset hmu hmi)
  have hsu : smart_union_result cfg ⊆ observedIds cfg := by
    rw [smart_union_result]
    exact calculate_combined_subset _ _ _
      (fun s hs => (execute_search_queries_sets_subset _ s hs).trans hs3)
  have hsi : smart_intersection_result cfg ⊆ observedIds cfg := by
    rw [smart_intersection_result]
    exact calculate_combined_subset _ _ _
      (fun s hs => (execute_search_queries_sets_subset _ s hs).trans hs4)
  have hsr : smart_result cfg ⊆ observedIds cfg := by
    rw [smart_result]
    exact (combine_include_subset _ _).trans (Finset.union_subset hsu hsi)
  have hsearch : search_result cfg ⊆ observedIds cfg := by
    rw [search_result]
    exact (combine_include_subset _ _).trans (Finset.union_subset hmr hsr)
  have hae : after_excludes cfg ⊆ observedIds cfg := by
    rw [after_excludes]
    split_ifs with h
    · exact Finset.sdiff_subset.trans hsearch
    · exact hsearch
  have hiui : include_union_ids o cfg ⊆ observedIds cfg := by
    rw [include_union_ids]
    split_ifs with hh1 hh2
    · exact Finset.empty_subset _
    · exact (filterDecision_subset _ _ _ _ _).trans (hsel _)
    · refine (filterDecision_subset _ _ _ _ _).trans ?_
      rw [hobs]
  have hiii : include_intersection_ids o cfg ⊆ observedIds cfg := by
    rw [include_intersection_ids]
    split_ifs with hh1 hh2
    · exact Finset.empty_subset _
    · exact (filterDecision_subset _ _ _ _ _).trans (hsel _)
    · refine (filterDecision_subset _ _ _ _ _).trans ?_
      rw [hobs]
  have hifi : include_filter_ids o cfg ⊆ observedIds cfg := by
    rw [include_filter_ids]
    exact (combine_include_subset _ _).trans (Finset.union_subset hiui hiii)
  have haif : after_include_filters o cfg ⊆ observedIds cfg := by
    rw [after_include_filters]
    split_ifs with h1 h2
    · exact Finset.inter_subset_left.trans hae
    · exact hifi
    · exact hae
  have haef : after_exclude_filters o cfg ⊆ observedIds cfg := by
    rw [after_exclude_filters]
    split_ifs with h
    · exact Finset.sdiff_subset.trans haif
    · exact haif
  have hfb : final_after_fallback o cfg ⊆ observedIds cfg := by
    rw [final_after_fallback]
    split_ifs with h
    · refine Finset.sdiff_subset.trans (Finset.sdiff_subset.trans ?_)
      rw [hobs]
    · exact haef
  rw [mainPipeline]
  split_ifs with hcap
  · intro x hx
    rw [List.mem_toFinset] at hx
    have hx2 := pySliceTo_subset _ _ x hx
    rw [Finset.mem_sort] at hx2
    exact hfb hx2
  · exact hfb

-- ### C2

def mkAsset (s : String) : Asset := { id := s }

def mkQuery (ids : List String) : SearchQuery :=
  { resultLimit := none, pages := [PageResponse.page (ids.map mkAsset) false] }

/-- C2 counterexample configuration: one exclude-metadata query in the
union group returning asset a, one in the intersection group returning
asset b. -/
def c2Cfg : Config :=
  { include_metadata_union := none
    include_metadata_intersection := none
    include_smart_union := none
    include_smart_intersection := none
    exclude_metadata_union := some [mkQuery ["a"]]
    exclude_metadata_intersection := some [mkQuery ["b"]]
    exclude_smart_union := none
    exclude_smart_intersection := none
    include_union_filters := []
    include_intersection_filters := []
    exclude_union_filters := []
    exclude_intersection_filters := []
    max_assets := none }

/-- C2 counterexample: the claim says that in every role, when both groups
of a category produce a result, the contribution is their intersection.
For the exclude role the code takes the union instead (line 485): with the
union group producing the set with a and the intersection group the set
with b (both non-empty), the exclude-metadata contribution is the
two-element union, not the empty intersection. -/
theorem c2_exclude_role_counterexample :
    calculate_combined_assets (execute_search_queries c2Cfg.exclude_metadata_union).2
        CombineMode.union = {"a"} ∧
      calculate_combined_assets
          (execute_search_queries c2Cfg.exclude_metadata_intersection).2
          CombineMode.intersection = {"b"} ∧
      exclude_metadata_result c2Cfg = {"a", "b"} ∧
      exclude_metadata_result c2Cfg ≠ ({"a"} ∩ {"b"} : Finset String) := by
  refine ⟨by decide, by decide, by decide, by decide⟩

/-- C2 (amended): for the include role of each category (and for the
combination of the two local include filter groups, which uses the same
chain), the contribution is the intersection of the two group results when
both are non-empty, the sole non-empty group result when only one is, and
empty when neither is. For the exclude role of each category the
contribution is always the union of the two group results. -/
theorem c2_category_combination (u i : Finset String) :
    (u.Nonempty → i.Nonempty → combine_include_category u i = u ∩ i) ∧
      (u.Nonempty → i = ∅ → combine_include_category u i = u) ∧
      (u = ∅ → i.Nonempty → combine_include_category u i = i) ∧
      (u = ∅ → i = ∅ → combine_include_category u i = ∅) ∧
      combine_exclude_category u i = u ∪ i := by
  refine ⟨?_, ?_, ?_, ?_, rfl⟩
  · intro h1 h2
    rw [combine_include_category, if_pos ⟨h1, h2⟩]
  · intro h1 h2
    subst h2
    rw [combine_include_category, if_neg (by simp), if_pos h1]
  · intro h1 h2
    subst h1
    rw [combine_include_category, if_neg (by simp), if_neg (by simp), if_pos h2]
  · intro h1 h2
    subst h1
    subst h2
    exact combine_include_empty

/-- Witness for C2: concrete instances of the include chain and the
exclude union. -/
theorem c2_category_combination_witness :
    combine_include_category {"a", "b"} {"b"} = ({"a", "b"} ∩ {"b"} : Finset String) ∧
      combine_include_category {"a"} ∅ = {"a"} ∧
      combine_exclude_category {"a"} {"b"} = {"a"} ∪ {"b"} :=
  ⟨(c2_category_combination {"a", "b"} {"b"}).1 (by decide) (by decide),
    (c2_category_combination {"a"} ∅).2.1 (by decide) rfl,
    (c2_category_combination {"a"} {"b"}).2.2.2.2⟩

-- ### C9

/-- C9: no stage fabricates identifiers. Every id in the output of either
predicate-filter iteration comes from an asset of its input list, and
every id in the final selection of the pipeline is the id of some asset
returned by a search executed during the run (the observed ids). -/
theorem c9_no_fabricated_ids :
    (∀ (o : Oracle) (assets : List Asset) (filters : List Rule) (inc ui : Bool),
      apply_filters o assets filters inc ui ⊆ assetIds assets ∧
        apply_local_filters o assets filters inc ui ⊆ assetIds assets) ∧
      ∀ (o : Oracle) (cfg : Config), mainPipeline o cfg ⊆ observedIds cfg := by
  constructor
  · intro o assets filters inc ui
    exact ⟨filterDecision_subset _ _ _ _ _, filterDecision_subset _ _ _ _ _⟩
  · intro o cfg
    exact mainPipeline_subset o cfg

-- ### C4

/-- An oracle that is irrelevant to runs without local filters. -/
def c4Oracle : Oracle :=
  { find := fun _ _ => some [], search := fun _ _ => false }

/-- C4 counterexample configuration: no include criteria of any kind, an
exclude-metadata intersection group observing d, e, f and excluding e, and
a maximum-count cap of 1. -/
def c4Cfg : Config :=
  { include_metadata_union := none
    include_metadata_intersection := none
    include_smart_union := none
    include_smart_intersection := none
    exclude_metadata_union := none
    exclude_metadata_intersection := some [mkQuery ["d", "e", "f"], mkQuery ["e"]]
    exclude_smart_union := none
    exclude_smart_intersection := none
    include_union_filters := []
    include_intersection_filters := []
    exclude_union_filters := []
    exclude_intersection_filters := []
    max_assets := some 1 }

/-- C4 counterexample: the claim states that in every run with no include
searches and no include filters the final selection equals the observed
ids minus the union of the exclude results. When max_assets is given, the
truncation of lines 645-648 runs after the fallback: here the fallback set
has the two ids d and f, but the final selection is cut to one element, so
it does not equal the claimed set. -/
theorem c4_max_assets_counterexample :
    observedIds c4Cfg \ (exclude_result c4Cfg ∪ exclude_filter_ids c4Oracle c4Cfg) =
        {"d", "f"} ∧
      mainPipeline c4Oracle c4Cfg ≠
        observedIds c4Cfg \ (exclude_result c4Cfg ∪ exclude_filter_ids c4Oracle c4Cfg) := by
  have hf : final_after_fallback c4Oracle c4Cfg = {"d", "f"} := by decide
  have hobs2 : observedIds c4Cfg \
      (exclude_result c4Cfg ∪ exclude_filter_ids c4Oracle c4Cfg) = {"d", "f"} := by
    decide
  refine ⟨hobs2, ?_⟩
  rw [hobs2, mainPipeline, hf, if_pos (by decide)]
  intro heq
  have hlen : (pySliceTo (Finset.sort (fun a b => a ≤ b) ({"d", "f"} : Finset String))
      (c4Cfg.max_assets.getD 0)).length = 1 := by
    rw [pySliceTo, if_pos (by decide)]
    rw [List.length_take, Finset.length_sort]
    decide
  have hcard : ({"d", "f"} : Finset String).card ≤ 1 := by
    rw [← heq]
    exact (List.toFinset_card_le _).trans (le_of_eq hlen)
  have hcard2 : ({"d", "f"} : Finset String).card = 2 := by decide
  omega

/-- C4 (amended): in every run in which no include search flag is given,
no include local filter was parsed, and no maximum-count cap is set, the
final selection equals the set of all asset ids observed during gather
minus the union of the exclude-search result and the exclude-filter
result (the no-criteria fallback of lines 634-642). With a cap the final
selection is a truncation of that set; see the counterexample. -/
theorem c4_no_criteria_fallback (o : Oracle) (cfg : Config)
    (h1 : cfg.include_metadata_union = none)
    (h2 : cfg.include_metadata_intersection = none)
    (h3 : cfg.include_smart_union = none)
    (h4 : cfg.include_smart_intersection = none)
    (h5 : cfg.include_union_filters = [])
    (h6 : cfg.include_intersection_filters = [])
    (h7 : cfg.max_assets = none) :
    mainPipeline o cfg =
      observedIds cfg \ (exclude_result cfg ∪ exclude_filter_ids o cfg) := by
  have hm : metadata_result cfg = ∅ := by
    rw [metadata_result, metadata_union_result, metadata_intersection_result, h1, h2]
    exact combine_include_empty
  have hs : smart_result cfg = ∅ := by
    rw [smart_result, smart_union_result, smart_intersection_result, h3, h4]
    exact combine_include_empty
  have hsr : search_result cfg = ∅ := by
    rw [search_result, hm, hs]
    exact combine_include_empty
  have hae : after_excludes cfg = ∅ := by
    rw [after_excludes, hsr]
    split_ifs with h
    · exact Finset.empty_sdiff _
    · rfl
  have hiu : include_union_ids o cfg = ∅ := by
    rw [include_union_ids, h5]
    rfl
  have hii : include_intersection_ids o cfg = ∅ := by
    rw [include_intersection_ids, h6]
    rfl
  have hif : include_filter_ids o cfg = ∅ := by
    rw [include_filter_ids, hiu, hii]
    exact combine_include_empty
  have haif : after_include_filters o cfg = ∅ := by
    rw [after_include_filters, hif, hae]
    simp
  have haef : after_exclude_filters o cfg = ∅ := by
    rw [after_exclude_filters, haif]
    split_ifs with h
    · exact Finset.empty_sdiff _
    · rfl
  have hcond : no_include_criteria o cfg = true := by
    rw [no_include_criteria, haef, h1, h2, h3, h4, h5, h6]
    simp [optTruthy]
  have hfb : final_after_fallback o cfg =
      (assetIds (unique_assets_from_all cfg) \ exclude_result cfg) \
        exclude_filter_ids o cfg := by
    rw [final_after_fallback, if_pos hcond]
  have hmp : mainPipeline o cfg = final_after_fallback o cfg := by
    rw [mainPipeline, h7]
    simp [pyTruthyInt]
  rw [hmp, hfb, assetIds_unique_all cfg]
  ext x
  simp only [Finset.mem_sdiff, Finset.mem_union]
  tauto

/-- The C4 configuration without the cap. -/
def c4CfgNoCap : Config :=
  { include_metadata_union := none
    include_metadata_intersection := none
    include_smart_union := none
    include_smart_intersection := none
    exclude_metadata_union := none
    exclude_metadata_intersection := some [mkQuery ["d", "e", "f"], mkQuery ["e"]]
    exclude_smart_union := none
    exclude_smart_intersection := none
    include_union_filters := []
    include_intersection_filters := []
    exclude_union_filters := []
    exclude_intersection_filters := []
    max_assets := none }

/-- Witness for C4: the fallback equality at the concrete run observing
d, e, f with e excluded. -/
theorem c4_no_criteria_fallback_witness :
    mainPipeline c4Oracle c4CfgNoCap =
      observedIds c4CfgNoCap \
        (exclude_result c4CfgNoCap ∪ exclude_filter_ids c4Oracle c4CfgNoCap) :=
  c4_no_criteria_fallback c4Oracle c4CfgNoCap rfl rfl rfl rfl rfl rfl rfl

/-- Witness for C9 at a concrete run. -/
theorem c9_no_fabricated_ids_witness :
    mainPipeline c4Oracle c2Cfg ⊆ observedIds c2Cfg :=
  c9_no_fabricated_ids.2 c4Oracle c2Cfg
